import Mathlib

/-!
Shallow embedding of the DNS message codec of `dns_client.py`.

Bytes are modelled as `Nat` values (0–255 in every reachable state) inside a
`List Nat`.  Python exceptions (`struct.error` on a short unpack, `IndexError`
on an out-of-range byte index, `UnicodeEncodeError` from `str.encode('ascii')`,
`ValueError` from `bytes([n])` with `n > 255`) are all modelled as `none`;
a normal return is `some`.  The random 16-bit transaction id drawn by
`create_dns_query` is passed as an explicit argument.

The question/owner-name skipping loop of `parse_dns_response` advances its
offset on every iteration, so it runs for at most `b.length - off` iterations;
`skipNameAux` makes that bound a structural fuel argument (the zero-fuel branch
is unreachable for the initial fuel, see `skipNameAux_fuel_ge`), which keeps
every definition computable by the kernel.
-/

namespace DnsClient

/-- Big-endian 16-bit serialization, `struct.pack` with format `!H`. -/
def pack16 (n : Nat) : List Nat :=
  [n / 256 % 256, n % 256]

/-- Python `str.split(sep)` for a single-character separator, over the
character list of the string: always at least one (possibly empty) part, one
extra part per separator occurrence. -/
def splitOnChar (sep : Char) : List Char → List (List Char)
  | [] => [[]]
  | c :: cs =>
    match splitOnChar sep cs with
    | [] => [[]]
    | part :: parts =>
      if c = sep then [] :: part :: parts else (c :: part) :: parts

/-- One label of `convert_domain_to_dns_format`:
`bytes([len(part)]) + part.encode('ascii')`.  `bytes([n])` raises `ValueError`
when the label has more than 255 characters, and `encode('ascii')` raises
`UnicodeEncodeError` on any character above code point 127. -/
def encodeLabel (part : List Char) : Option (List Nat) :=
  if part.length ≤ 255 ∧ ∀ c ∈ part, c.toNat ≤ 127 then
    some (part.length :: part.map Char.toNat)
  else none

/-- `convert_domain_to_dns_format(domain)`: split on the dot, emit a length
byte and the ASCII bytes per label, then a terminating zero byte. -/
def convert_domain_to_dns_format (domain : String) : Option (List Nat) :=
  ((splitOnChar '.' domain.data).mapM encodeLabel).map (fun ls => ls.flatten ++ [0])

/-- `create_dns_query(domain_name, query_type)` with the random transaction id
made explicit: 12-byte header (id, flags 0x0100, qdcount 1, ancount 0,
nscount 0, arcount 0, all big-endian 16-bit), then the encoded name, then
QTYPE and QCLASS (= 1). -/
def create_dns_query (domain_name : String) (query_type : Nat)
    (transaction_id : Nat) : Option (List Nat) :=
  (convert_domain_to_dns_format domain_name).map fun question =>
    pack16 transaction_id ++ pack16 0x0100 ++ pack16 1 ++ pack16 0 ++
      pack16 0 ++ pack16 0 ++ question ++ pack16 query_type ++ pack16 1

/-- Big-endian 16-bit read at `off`, as done by `struct.unpack` once the
bounds of the surrounding slice have been checked. -/
def read16 (b : List Nat) (off : Nat) : Nat :=
  b.getD off 0 * 256 + b.getD (off + 1) 0

/-- The name-skipping loop body of `parse_dns_response`
(`length = response[offset]; if length == 0: offset += 1; break;
offset += length + 1`), with a structural fuel argument bounding the number
of iterations.  Reading past the end of the buffer is `none` (`IndexError`). -/
def skipNameAux (b : List Nat) : Nat → Nat → Option Nat
  | fuel, off =>
    if off < b.length then
      match fuel with
      | 0 => none
      | fuel + 1 =>
        let len := b.getD off 0
        if len = 0 then some (off + 1) else skipNameAux b fuel (off + len + 1)
    else none

/-- The name-skipping loop, entered with enough fuel for every iteration
(each iteration strictly advances the offset, so `b.length - off` bounds the
iteration count; see `skipNameAux_fuel_ge`). -/
def skipName (b : List Nat) (off : Nat) : Option Nat :=
  skipNameAux b (b.length - off) off

/-- The owner-name handling at the head of each answer record: if the top two
bits of the first byte are set it is a 2-byte compression pointer, skipped
without dereferencing; otherwise the label loop runs as in the question. -/
def skipAnswerName (b : List Nat) (off : Nat) : Option Nat :=
  if off < b.length then
    if b.getD off 0 &&& 0xC0 = 0xC0 then some (off + 2)
    else skipName b off
  else none

/-- `'.'.join(str(x) for x in ip_bytes)`. -/
def ipString (ip_bytes : List Nat) : String :=
  String.intercalate "." (ip_bytes.map toString)

/-- The answer loop of `parse_dns_response`: for each of `ancount` records,
skip the owner name, unpack type/class/TTL/RDLENGTH from the next 10 bytes
(`struct.error` if fewer than 10 remain), and if the type is 1 append the
dotted string of the RDATA slice `response[offset:offset+data_len]` (a Python
slice, silently truncated at the buffer end); the offset advances by RDLENGTH
for every record type. -/
def parseAnswers (b : List Nat) : Nat → Nat → Option (List String)
  | 0, _ => some []
  | n + 1, off =>
    (skipAnswerName b off).bind fun noff =>
      if noff + 10 ≤ b.length then
        let record_type := read16 b noff
        let data_len := read16 b (noff + 8)
        let rest := parseAnswers b n (noff + 10 + data_len)
        if record_type = 1 then
          rest.map (fun ips => ipString ((b.drop (noff + 10)).take data_len) :: ips)
        else rest
      else none

/-- `parse_dns_response(response)`: unpack the 12-byte header (`struct.error`
if the buffer is shorter), skip one question (name walk plus 4 bytes of
QTYPE/QCLASS), then run the answer loop `ancount` times.  The header fields
other than `ancount` (bytes 6–7) are read but never used. -/
def parse_dns_response (b : List Nat) : Option (List String) :=
  if 12 ≤ b.length then
    (skipName b 12).bind fun qend =>
      parseAnswers b (read16 b 6) (qend + 4)
  else none

/-- Test fixture for answer parsing: ancount 2, a one-label question, a first
answer with a compression-pointer owner name, type 1 (A), RDLENGTH 4 and
RDATA 93.184.216.34, and a second answer with type 5 (CNAME), RDLENGTH 3. -/
def buf2 : List Nat :=
  [0x12, 0x34, 0x81, 0x80, 0, 1, 0, 2, 0, 0, 0, 0,
   1, 97, 0, 0, 1, 0, 1,
   0xC0, 12, 0, 1, 0, 1, 0, 0, 0, 60, 0, 4, 93, 184, 216, 34,
   0xC0, 12, 0, 5, 0, 1, 0, 0, 0, 60, 0, 3, 7, 8, 9]

/-- Test fixture for the RDLENGTH-overrun behaviour: ancount 1, an empty
question name, one A answer whose RDLENGTH is 4 while only two RDATA bytes
(93, 184) remain in the buffer. -/
def buf5 : List Nat :=
  [0, 0, 0x81, 0x80, 0, 1, 0, 1, 0, 0, 0, 0,
   0, 0, 1, 0, 1,
   0xC0, 12, 0, 1, 0, 1, 0, 0, 0, 0, 0, 4, 93, 184]

/-- Test fixture for a type-1 record with RDLENGTH 2: the whole record is in
bounds, but its RDATA has two bytes, not four. -/
def buf6 : List Nat :=
  [0, 0, 0x81, 0x80, 0, 1, 0, 1, 0, 0, 0, 0,
   0, 0, 1, 0, 1,
   0xC0, 12, 0, 1, 0, 1, 0, 0, 0, 0, 0, 2, 9, 9]

/-- Test fixture with QDCOUNT 2 and two actual questions, followed by one A
answer for 1.2.3.4: the decoder skips only one question, so the answer loop
starts inside the second question. -/
def bufQD : List Nat :=
  [0, 0, 0x81, 0x80, 0, 2, 0, 1, 0, 0, 0, 0,
   1, 97, 0, 0, 1, 0, 1,
   1, 98, 0, 0, 1, 0, 1,
   0xC0, 12, 0, 1, 0, 1, 0, 0, 0, 0, 0, 4, 1, 2, 3, 4]

/-- Modelled from the spec wording for the result strings: exactly four
dot-separated decimal octets, each the decimal numeral of a value below 256. -/
def isDottedQuad (s : String) : Bool :=
  let parts := (splitOnChar '.' s.data).map (fun cs => String.mk cs)
  parts.length == 4 &&
    parts.all fun p =>
      match p.toNat? with
      | some n => decide (n ≤ 255) && p == toString n
      | none => false

/-- C1: for a dot-separated ASCII domain the query is the 12-byte header
(transaction id, flags 0x0100, qdcount 1, the other counts 0) followed by the
length-prefixed labels, the zero terminator, and QTYPE/QCLASS 1; for
domain `a.b.c` every byte after the two transaction-id bytes equals the fixed
sequence `01 61 01 62 01 63 00 00 01 00 01` preceded by the fixed header
tail `01 00 00 01 00 00 00 00 00 00`. -/
theorem create_query_a_b_c (tid : Nat) :
    create_dns_query "a.b.c" 1 tid =
      some (pack16 tid ++
        [1, 0, 0, 1, 0, 0, 0, 0, 0, 0, 1, 97, 1, 98, 1, 99, 0, 0, 1, 0, 1]) ∧
    (create_dns_query "a.b.c" 1 tid).map (List.drop 2) =
      some [1, 0, 0, 1, 0, 0, 0, 0, 0, 0, 1, 97, 1, 98, 1, 99, 0, 0, 1, 0, 1] := by
  have h : convert_domain_to_dns_format "a.b.c" = some [1, 97, 1, 98, 1, 99, 0] := by
    decide
  constructor
  · simp [create_dns_query, h, pack16]
  · simp [create_dns_query, h, pack16]

/-- C2: an answer record whose type is not 1 contributes no address and is
skipped by advancing the offset over its 10 fixed bytes plus RDLENGTH, its
RDATA never being inspected; on the fixture with ancount 2, one A record for
93.184.216.34 and one CNAME (type 5) record, the decoder returns exactly the
one-element list. -/
theorem parse_skips_non_a_records :
    (∀ (b : List Nat) (n off noff : Nat), skipAnswerName b off = some noff →
      noff + 10 ≤ b.length → read16 b noff ≠ 1 →
      parseAnswers b (n + 1) off = parseAnswers b n (noff + 10 + read16 b (noff + 8))) ∧
    parse_dns_response buf2 = some ["93.184.216.34"] := by
  constructor
  · intro b n off noff h1 h2 h3
    simp [parseAnswers, h1, h2, h3]
  · decide

/-- C2 witness: the second answer record of the fixture (type 5 at offset 35,
name pointer ending at 37) is skipped without contributing an address. -/
theorem parse_skips_non_a_records_witness :
    (skipAnswerName buf2 35 = some 37 ∧ 37 + 10 ≤ buf2.length ∧
      read16 buf2 37 ≠ 1) ∧
    parseAnswers buf2 (0 + 1) 35 = parseAnswers buf2 0 (37 + 10 + read16 buf2 (37 + 8)) :=
  ⟨⟨by decide, by decide, by decide⟩,
    parse_skips_non_a_records.1 buf2 0 35 37 (by decide) (by decide) (by decide)⟩

/-- C3: a buffer shorter than the 12-byte header makes `parse_dns_response`
fail (Python `struct.error` on the short unpack, modelled as `none`) instead
of returning a result. -/
theorem parse_short_header_fails (b : List Nat) (h : b.length < 12) :
    parse_dns_response b = none := by
  unfold parse_dns_response
  rw [if_neg (by omega)]

/-- C3 witness: the 2-byte buffer is rejected. -/
theorem parse_short_header_fails_witness :
    ([0x12, 0x34] : List Nat).length < 12 ∧ parse_dns_response [0x12, 0x34] = none :=
  ⟨by decide, parse_short_header_fails [0x12, 0x34] (by decide)⟩

/-- C4: when an answer record's owner name starts with a byte whose top two
bits are set, the name is skipped by advancing exactly 2 bytes, the pointer
target is never dereferenced, and the record's fixed fields and RDATA are
read from the bytes that follow: if the type there is 1 and the 10 fixed
bytes are in bounds, the record's A address (the dotted string of the
RDLENGTH-byte RDATA slice) is prepended to the remaining answers. -/
theorem pointer_name_skips_two (b : List Nat) (n off : Nat)
    (h1 : off < b.length) (h2 : b.getD off 0 &&& 0xC0 = 0xC0) :
    skipAnswerName b off = some (off + 2) ∧
    (read16 b (off + 2) = 1 → off + 2 + 10 ≤ b.length →
      parseAnswers b (n + 1) off =
        (parseAnswers b n (off + 2 + 10 + read16 b (off + 2 + 8))).map
          (fun ips =>
            ipString ((b.drop (off + 2 + 10)).take (read16 b (off + 2 + 8))) :: ips)) := by
  have hskip : skipAnswerName b off = some (off + 2) := by
    unfold skipAnswerName
    rw [if_pos h1, if_pos h2]
  refine ⟨hskip, fun h3 h4 => ?_⟩
  simp [parseAnswers, hskip, h3, h4]

/-- C4 witness: the first answer of the fixture starts with pointer byte 0xC0
at offset 19, its name is skipped to 21, and its address 93.184.216.34 is
extracted from the fields that follow. -/
theorem pointer_name_skips_two_witness :
    (19 < buf2.length ∧ buf2.getD 19 0 &&& 0xC0 = 0xC0 ∧
      read16 buf2 (19 + 2) = 1 ∧ 19 + 2 + 10 ≤ buf2.length) ∧
    skipAnswerName buf2 19 = some (19 + 2) ∧
    parseAnswers buf2 (1 + 1) 19 =
      (parseAnswers buf2 1 (19 + 2 + 10 + read16 buf2 (19 + 2 + 8))).map
        (fun ips =>
          ipString ((buf2.drop (19 + 2 + 10)).take (read16 buf2 (19 + 2 + 8))) :: ips) :=
  ⟨⟨by decide, by decide, by decide, by decide⟩,
    (pointer_name_skips_two buf2 1 19 (by decide) (by decide)).1,
    (pointer_name_skips_two buf2 1 19 (by decide) (by decide)).2 (by decide) (by decide)⟩

/-- C5 counterexample: on a buffer whose single A record declares RDLENGTH 4
while only two RDATA bytes remain, `parse_dns_response` does not fail; the
Python slice truncates silently and the call returns `["93.184"]`. -/
theorem parse_rdlength_overrun_succeeds :
    parse_dns_response buf5 = some ["93.184"] := by decide

/-- C5 amended: when the final answer record is an A record whose RDLENGTH
reaches past the buffer end, the decoder does not fail: the RDATA slice is
truncated at the buffer end (its length is the number of bytes actually
remaining, less than RDLENGTH) and the dotted string of the truncated slice
is returned. -/
theorem rdlength_overrun_truncates (b : List Nat) (off noff : Nat)
    (h1 : skipAnswerName b off = some noff) (h2 : noff + 10 ≤ b.length)
    (h3 : read16 b noff = 1) (h4 : b.length < noff + 10 + read16 b (noff + 8)) :
    parseAnswers b 1 off =
      some [ipString ((b.drop (noff + 10)).take (read16 b (noff + 8)))] ∧
    ((b.drop (noff + 10)).take (read16 b (noff + 8))).length = b.length - (noff + 10) := by
  constructor
  · simp [parseAnswers, h1, h2, h3]
  · rw [List.length_take, List.length_drop]
    omega

/-- C5 amended witness: the overrun fixture record at offset 17 (name pointer
ending at 19) yields the truncated two-byte slice. -/
theorem rdlength_overrun_truncates_witness :
    (skipAnswerName buf5 17 = some 19 ∧ 19 + 10 ≤ buf5.length ∧
      read16 buf5 19 = 1 ∧ buf5.length < 19 + 10 + read16 buf5 (19 + 8)) ∧
    parseAnswers buf5 1 17 =
      some [ipString ((buf5.drop (19 + 10)).take (read16 buf5 (19 + 8)))] ∧
    ((buf5.drop (19 + 10)).take (read16 buf5 (19 + 8))).length = buf5.length - (19 + 10) :=
  ⟨⟨by decide, by decide, by decide, by decide⟩,
    rdlength_overrun_truncates buf5 17 19 (by decide) (by decide) (by decide) (by decide)⟩

/-- C6 counterexample: a successful decode can return a string that is not a
dotted quad: an in-bounds type-1 record with RDLENGTH 2 yields "9.9", which
has two octets, not four. -/
theorem parse_result_not_dotted_quad :
    parse_dns_response buf6 = some ["9.9"] ∧ isDottedQuad "9.9" = false :=
  ⟨by decide, by decide⟩

/-- Every string produced by the answer loop is the dotted join of a
contiguous slice of the buffer (the record's RDATA slice). -/
theorem parseAnswers_mem_ipString (b : List Nat) :
    ∀ (n off : Nat) (ips : List String), parseAnswers b n off = some ips →
      ∀ s ∈ ips, ∃ p d, s = ipString ((b.drop p).take d) := by
  intro n
  induction n with
  | zero =>
    intro off ips h s hs
    simp only [parseAnswers, Option.some.injEq] at h
    subst h
    simp at hs
  | succ n ih =>
    intro off ips h s hs
    rcases hb : skipAnswerName b off with _ | noff
    · simp [parseAnswers, hb] at h
    simp only [parseAnswers, hb, Option.some_bind] at h
    by_cases hlen : noff + 10 ≤ b.length
    · rw [if_pos hlen] at h
      by_cases hty : read16 b noff = 1
      · rw [if_pos hty] at h
        obtain ⟨tl, htl, rfl⟩ := Option.map_eq_some'.mp h
        rcases List.mem_cons.mp hs with rfl | hs2
        · exact ⟨noff + 10, read16 b (noff + 8), rfl⟩
        · exact ih _ tl htl s hs2
      · rw [if_neg hty] at h
        exact ih _ ips h s hs
    · rw [if_neg hlen] at h
      cases h

/-- C6 amended: every string returned by a successful decode is the
dot-separated join of the decimal values of the bytes of the corresponding
record's RDATA slice (`RDLENGTH` bytes starting after the fixed fields,
truncated at the buffer end); it is a four-octet dotted quad exactly when
that slice holds 4 bytes, which the decoder never checks. -/
theorem decode_strings_come_from_rdata (b : List Nat) (ips : List String)
    (h : parse_dns_response b = some ips) :
    ∀ s ∈ ips, ∃ p d, s = ipString ((b.drop p).take d) := by
  unfold parse_dns_response at h
  by_cases h12 : 12 ≤ b.length
  · rw [if_pos h12] at h
    rcases hq : skipName b 12 with _ | qend
    · rw [hq] at h; cases h
    · rw [hq] at h
      exact parseAnswers_mem_ipString b _ _ _ (by simpa using h)
  · rw [if_neg h12] at h
    cases h

/-- C6 amended witness: the address string of the two-record fixture is the
dotted join of an RDATA slice of the buffer. -/
theorem decode_strings_come_from_rdata_witness :
    parse_dns_response buf2 = some ["93.184.216.34"] ∧
    ∃ p d, "93.184.216.34" = ipString ((buf2.drop p).take d) :=
  ⟨by decide,
    decode_strings_come_from_rdata buf2 ["93.184.216.34"] (by decide)
      "93.184.216.34" (by simp)⟩

/-- C7 counterexample: the encoder does raise on some malformed domains:
a non-ASCII character makes `str.encode('ascii')` raise
`UnicodeEncodeError`, so `create_dns_query` fails instead of returning a
packet. -/
theorem encode_non_ascii_fails : create_dns_query "é" 1 0 = none := by decide

/-- Helper for C7: each label that is at most 255 characters of ASCII
encodes successfully, so `mapM` over such labels succeeds. -/
theorem mapM_encodeLabel_isSome :
    ∀ l : List (List Char),
      (∀ p ∈ l, p.length ≤ 255 ∧ ∀ c ∈ p, c.toNat ≤ 127) →
      (l.mapM encodeLabel).isSome = true := by
  intro l
  induction l with
  | nil => intro _; rfl
  | cons p ps ih =>
    intro h
    have hp : encodeLabel p = some (p.length :: p.map Char.toNat) := by
      unfold encodeLabel
      rw [if_pos (h p (by simp))]
    have hps := ih fun q hq => h q (by simp [hq])
    rcases hm : ps.mapM encodeLabel with _ | v
    · rw [hm] at hps
      cases hps
    · rw [List.mapM_cons, hp, hm]
      rfl

/-- C7 amended: no validation of label length within the byte range or of
the character set within ASCII is performed: any domain whose labels all
have at most 255 characters, each of code point at most 127 — including
labels longer than 63 octets — produces a packet; only a non-ASCII character
(UnicodeEncodeError) or a label over 255 characters (ValueError on the
length byte) makes the encoder fail. -/
theorem encode_no_label_validation (d : String) (t tid : Nat)
    (h : ∀ p ∈ splitOnChar '.' d.data, p.length ≤ 255 ∧ ∀ c ∈ p, c.toNat ≤ 127) :
    (create_dns_query d t tid).isSome = true := by
  unfold create_dns_query convert_domain_to_dns_format
  have hm := mapM_encodeLabel_isSome (splitOnChar '.' d.data) h
  rcases he : (splitOnChar '.' d.data).mapM encodeLabel with _ | ls
  · rw [he] at hm
    cases hm
  · simp [he]

/-- C7 amended witness: a domain with a 64-character first label — longer
than the 63-octet DNS limit — is encoded without complaint. -/
theorem encode_no_label_validation_witness :
    (∀ p ∈ splitOnChar '.'
        ("aaaaaaaaaaaaaaaaaaaaaaaaaaaaaaaaaaaaaaaaaaaaaaaaaaaaaaaaaaaaaaaa.com"
          : String).data,
      p.length ≤ 255 ∧ ∀ c ∈ p, c.toNat ≤ 127) ∧
    (create_dns_query
      "aaaaaaaaaaaaaaaaaaaaaaaaaaaaaaaaaaaaaaaaaaaaaaaaaaaaaaaaaaaaaaaa.com"
      1 0).isSome = true :=
  ⟨by decide,
    encode_no_label_validation
      "aaaaaaaaaaaaaaaaaaaaaaaaaaaaaaaaaaaaaaaaaaaaaaaaaaaaaaaaaaaaaaaa.com"
      1 0 (by decide)⟩

/-- Once the offset is out of bounds the name walk fails for any fuel. -/
theorem skipNameAux_oob (b : List Nat) (fuel off : Nat)
    (h : ¬off < b.length) : skipNameAux b fuel off = none := by
  cases fuel <;> simp [skipNameAux, h]

/-- The fuel argument of `skipNameAux` is irrelevant as long as it is at
least the number of bytes remaining: each iteration strictly advances the
offset, so the loop runs out of buffer before it runs out of fuel. -/
theorem skipNameAux_congr (b : List Nat) :
    ∀ f1 f2 off, b.length - off ≤ f1 → b.length - off ≤ f2 →
      skipNameAux b f1 off = skipNameAux b f2 off := by
  intro f1
  induction f1 with
  | zero =>
    intro f2 off h1 _
    have hb : ¬off < b.length := by omega
    rw [skipNameAux_oob b _ off hb, skipNameAux_oob b f2 off hb]
  | succ f1 ih =>
    intro f2 off h1 h2
    by_cases hb : off < b.length
    · cases f2 with
      | zero => omega
      | succ f2 =>
        simp only [skipNameAux]
        rw [if_pos hb, if_pos hb]
        by_cases hz : b.getD off 0 = 0
        · rw [if_pos hz, if_pos hz]
        · rw [if_neg hz, if_neg hz]
          exact ih f2 (off + b.getD off 0 + 1) (by omega) (by omega)
    · rw [skipNameAux_oob b _ off hb, skipNameAux_oob b f2 off hb]

/-- Any fuel bound of at least the remaining byte count gives the same
result as the canonical entry fuel: the name walk terminates within
`b.length - off` iterations. -/
theorem skipNameAux_fuel_ge (b : List Nat) (fuel off : Nat)
    (h : b.length - off ≤ fuel) : skipNameAux b fuel off = skipName b off :=
  skipNameAux_congr b fuel (b.length - off) off h (Nat.le_refl _)

/-- A successful name walk strictly advances the offset and lands inside or
just past the buffer. -/
theorem skipNameAux_lt (b : List Nat) :
    ∀ fuel off off', skipNameAux b fuel off = some off' →
      off < off' ∧ off' ≤ b.length := by
  intro fuel
  induction fuel with
  | zero =>
    intro off off' h
    by_cases hb : off < b.length <;> simp [skipNameAux, hb] at h
  | succ fuel ih =>
    intro off off' h
    by_cases hb : off < b.length
    · simp only [skipNameAux, if_pos hb] at h
      by_cases hz : b.getD off 0 = 0
      · rw [if_pos hz] at h
        cases h
        omega
      · rw [if_neg hz] at h
        have := ih _ _ h
        exact ⟨by omega, this.2⟩
    · simp [skipNameAux, hb] at h

/-- Strict progress for `skipName`. -/
theorem skipName_lt (b : List Nat) (off off' : Nat)
    (h : skipName b off = some off') : off < off' ∧ off' ≤ b.length :=
  skipNameAux_lt b _ off off' h

/-- Strict progress for the answer-record owner name, pointer or labels. -/
theorem skipAnswerName_lt (b : List Nat) (off off' : Nat)
    (h : skipAnswerName b off = some off') : off < off' := by
  unfold skipAnswerName at h
  by_cases hb : off < b.length
  · rw [if_pos hb] at h
    by_cases hp : b.getD off 0 &&& 0xC0 = 0xC0
    · rw [if_pos hp] at h
      cases h
      omega
    · rw [if_neg hp] at h
      exact (skipName_lt b off off' h).1
  · rw [if_neg hb] at h
    cases h

/-- Writing a byte below every position the name walk reads leaves the walk
unchanged. -/
theorem skipNameAux_set (b : List Nat) (i x : Nat) :
    ∀ fuel off, i < off →
      skipNameAux (b.set i x) fuel off = skipNameAux b fuel off := by
  intro fuel
  induction fuel with
  | zero =>
    intro off _
    simp [skipNameAux]
  | succ fuel ih =>
    intro off hio
    have hg : (b.set i x).getD off 0 = b.getD off 0 := by
      simp [List.getElem?_set_ne (by omega : i ≠ off)]
    simp only [skipNameAux, List.length_set, hg]
    by_cases hb : off < b.length
    · rw [if_pos hb, if_pos hb]
      by_cases hz : b.getD off 0 = 0
      · rw [if_pos hz, if_pos hz]
      · rw [if_neg hz, if_neg hz]
        exact ih _ (by omega)
    · rw [if_neg hb, if_neg hb]

/-- Writing a byte below the current offset leaves `skipName` unchanged. -/
theorem skipName_set (b : List Nat) (i x off : Nat) (h : i < off) :
    skipName (b.set i x) off = skipName b off := by
  unfold skipName
  rw [List.length_set]
  exact skipNameAux_set b i x _ off h

/-- Writing a byte below the current offset leaves the owner-name step
unchanged. -/
theorem skipAnswerName_set (b : List Nat) (i x off : Nat) (h : i < off) :
    skipAnswerName (b.set i x) off = skipAnswerName b off := by
  unfold skipAnswerName
  rw [List.length_set]
  have hg : (b.set i x).getD off 0 = b.getD off 0 := by
    simp [List.getElem?_set_ne (by omega : i ≠ off)]
  rw [hg, skipName_set b i x off h]

/-- Writing a byte below a 16-bit field leaves its read unchanged. -/
theorem read16_set_of_lt (b : List Nat) (i x j : Nat) (h : i < j) :
    read16 (b.set i x) j = read16 b j := by
  unfold read16
  rw [show (b.set i x).getD j 0 = b.getD j 0 by
        simp [List.getElem?_set_ne (by omega : i ≠ j)],
      show (b.set i x).getD (j + 1) 0 = b.getD (j + 1) 0 by
        simp [List.getElem?_set_ne (by omega : i ≠ j + 1)]]

/-- Writing a byte below the answer offset leaves the whole answer loop
unchanged: every byte the loop reads sits at or after its offset, which only
grows. -/
theorem parseAnswers_set (b : List Nat) (i x : Nat) :
    ∀ n off, i < off → parseAnswers (b.set i x) n off = parseAnswers b n off := by
  intro n
  induction n with
  | zero => intro off _; rfl
  | succ n ih =>
    intro off hio
    rw [parseAnswers, parseAnswers, skipAnswerName_set b i x off hio]
    cases hsk : skipAnswerName b off with
    | none => rfl
    | some noff =>
      have hnoff : off < noff := skipAnswerName_lt b off noff hsk
      simp only [Option.some_bind, List.length_set]
      rw [read16_set_of_lt b i x noff (by omega),
          read16_set_of_lt b i x (noff + 8) (by omega),
          ih (noff + 10 + read16 b (noff + 8)) (by omega),
          List.drop_set, if_pos (by omega : i < noff + 10)]

/-- C8: the decoder never uses QDCOUNT — overwriting header bytes 4 and 5
(the question count) with any values leaves the result unchanged, because
exactly one question is skipped regardless; consequently, on the fixture with
QDCOUNT 2 and two real questions followed by an A record for 1.2.3.4, the
answer loop starts inside the second question and returns the wrong
result ["0"]. -/
theorem qdcount_is_ignored :
    (∀ (b : List Nat) (x y : Nat),
      parse_dns_response ((b.set 4 x).set 5 y) = parse_dns_response b) ∧
    parse_dns_response bufQD = some ["0"] := by
  constructor
  · intro b x y
    unfold parse_dns_response
    rw [List.length_set, List.length_set]
    by_cases h12 : 12 ≤ b.length
    · rw [if_pos h12, if_pos h12]
      rw [show read16 ((b.set 4 x).set 5 y) 6 = read16 b 6 by
            rw [read16_set_of_lt _ 5 y 6 (by omega), read16_set_of_lt b 4 x 6 (by omega)],
          show skipName ((b.set 4 x).set 5 y) 12 = skipName b 12 by
            rw [skipName_set _ 5 y 12 (by omega), skipName_set b 4 x 12 (by omega)]]
      cases hq : skipName b 12 with
      | none => rfl
      | some qend =>
        have hlt := (skipName_lt b 12 qend hq).1
        simp only [Option.some_bind]
        rw [parseAnswers_set _ 5 y _ _ (by omega),
            parseAnswers_set b 4 x _ _ (by omega)]
    · rw [if_neg h12, if_neg h12]
  · decide

/-- C8 witness: a concrete overwrite of the QDCOUNT bytes of the two-answer
fixture changes nothing. -/
theorem qdcount_is_ignored_witness :
    parse_dns_response ((buf2.set 4 0).set 5 7) = parse_dns_response buf2 :=
  qdcount_is_ignored.1 buf2 0 7

/-- C9: the codec is deterministic: decoding the same buffer twice gives the
same result, and two encodings of the same domain and query type with
different random transaction ids agree on every byte from offset 2 on — the
transaction id only ever reaches the first two bytes. -/
theorem codec_deterministic (d : String) (t tid1 tid2 : Nat) (b : List Nat) :
    (create_dns_query d t tid1).map (List.drop 2) =
      (create_dns_query d t tid2).map (List.drop 2) ∧
    parse_dns_response b = parse_dns_response b := by
  refine ⟨?_, rfl⟩
  unfold create_dns_query
  cases hc : convert_domain_to_dns_format d with
  | none => rfl
  | some q => simp [pack16]

/-- C10: the decode pass terminates: a successful name walk strictly
advances the offset (a non-zero label by at least 2, the terminator by 1)
and stays within the buffer, an answer owner name (pointer or labels)
strictly advances the offset, and the name-walk loop completes within
`b.length - off` iterations — any fuel at least that large gives the very
same result, so no position is ever revisited and the whole procedure ends
in success or a bounds failure. -/
theorem decode_terminates :
    (∀ (b : List Nat) (off off' : Nat), skipName b off = some off' →
      off < off' ∧ off' ≤ b.length) ∧
    (∀ (b : List Nat) (off off' : Nat), skipAnswerName b off = some off' →
      off < off') ∧
    (∀ (b : List Nat) (fuel off : Nat), b.length - off ≤ fuel →
      skipNameAux b fuel off = skipName b off) :=
  ⟨skipName_lt, skipAnswerName_lt, skipNameAux_fuel_ge⟩

/-- C10 witness: concrete progress on the two-answer fixture: the question
name walk moves 12 to 15 inside the 50-byte buffer, the first answer's
pointer name moves 19 to 21, and a surplus fuel of 50 agrees with the
canonical entry fuel. -/
theorem decode_terminates_witness :
    (skipName buf2 12 = some 15 ∧ 12 < 15 ∧ 15 ≤ buf2.length) ∧
    (skipAnswerName buf2 19 = some 21 ∧ 19 < 21) ∧
    (buf2.length - 12 ≤ 50 ∧ skipNameAux buf2 50 12 = skipName buf2 12) :=
  ⟨⟨by decide, decode_terminates.1 buf2 12 15 (by decide)⟩,
    ⟨by decide, decode_terminates.2.1 buf2 19 21 (by decide)⟩,
    ⟨by decide, decode_terminates.2.2 buf2 50 12 (by decide)⟩⟩

end DnsClient
